import Mathlib

/-!
Verification of the voyager-message queue engine
(`src/voyager/voyager-message/src/lib.rs`).

The Rust core is a recursive reducer over the sum type `QueueMsg<T>`.
This file gives a shallow embedding:

* `QueueMsg` mirrors the Rust enum, with the payload types
  (`T::Event`, `T::Data`, ...) as type parameters; `VecDeque` becomes
  `List` (head = front).
* The effectful handler calls (`HandleEvent::handle`, `HandleFetch::handle`,
  `HandleMsg::handle`, `HandleWait::handle`, `HandleAggregate::handle`) are
  modelled as pure functions packed in a `Handlers` record; `await` points
  are collapsed (the async suspension has no observable effect beyond the
  returned value).
* `QueueMsg::handle` becomes `step`, which also returns the list of
  observable effects (`Trace`): handler invocations and the error/warn
  log records emitted by the reducer.  (The unconditional info-level
  "handling message" log at the top of `handle` is not modelled; only the
  effects the specification talks about are.)
* `u64` arithmetic is `Nat` with an explicit `% 2 ^ 64` at the two
  addition sites (`now() + seconds`, `now() + RETRY_DELAY_SECONDS`),
  matching release-mode wrapping semantics.
* `now()` (wall-clock unix seconds) is a parameter of `step`: within one
  step the Rust code may read the clock once, and the reading is passed
  in explicitly.
-/

set_option autoImplicit false

namespace Voyager

/-- The `DeferPoint` enum (lib.rs lines 82-87). -/
inductive DeferPoint : Type where
  | Absolute
  | Relative
deriving DecidableEq, Repr

/-- The queue value language `QueueMsg<T>` (lib.rs lines 89-133).  Type parameters are the
associated payload types of `QueueMsgTypes`: `E = T::Event`,
`D = T::Data`, `F = T::Fetch`, `M = T::Msg`, `W = T::Wait`,
`A = T::Aggregate`.  `VecDeque<Self>` becomes `List` with the head as
the front; `Box<Self>` is erased. -/
inductive QueueMsg (E D F M W A : Type) : Type where
  | Event (event : E)
  | Data (data : D)
  | Fetch (fetch : F)
  | Msg (msg : M)
  | Wait (wait : W)
  | DeferUntil (point : DeferPoint) (seconds : Nat)
  | Repeat (times : Nat) (msg : QueueMsg E D F M W A)
  | Timeout (timeout_timestamp : Nat) (msg : QueueMsg E D F M W A)
  | Sequence (queue : List (QueueMsg E D F M W A))
  | Retry (remaining : Nat) (msg : QueueMsg E D F M W A)
  | Aggregate (queue : List (QueueMsg E D F M W A)) (data : List D)
      (receiver : A)
  | Noop

variable {E D F M W A Err : Type}

/-- The handler capabilities consumed by the reducer
(`HandleEvent`, `HandleFetch`, `HandleMsg`, `HandleWait`,
`HandleAggregate`, lib.rs lines 1802-1823), packaged as one record.
`msg` returns `Except Err Unit`, mirroring
`Result<(), Box<dyn std::error::Error>>`. -/
structure Handlers (E D F M W A Err : Type) : Type where
  event : E → QueueMsg E D F M W A
  fetch : F → QueueMsg E D F M W A
  msg : M → Except Err Unit
  wait : W → QueueMsg E D F M W A
  aggregate : A → List D → QueueMsg E D F M W A

/-- Observable effects of one reducer step: handler invocations and the
error/warn log records the reducer itself emits (`tracing::error!` in the
`Data` arm, `tracing::warn!` in the `Timeout` arm, `tracing::warn!` /
`tracing::error!` in the `Retry` arm). -/
inductive Trace (E D F M W A Err : Type) : Type where
  | eventCall (e : E)
  | fetchCall (f : F)
  | msgCall (m : M)
  | waitCall (w : W)
  | receiverCall (a : A) (data : List D)
  | strayDataLog (d : D)
  | expiredLog
  | retryWarnLog (e : Err)
  | retryFailLog
deriving DecidableEq

/-- Whether a trace entry is a handler invocation (as opposed to a log
record emitted by the reducer itself). -/
def Trace.isHandlerCall : Trace E D F M W A Err → Bool
  | .eventCall _ => true
  | .fetchCall _ => true
  | .msgCall _ => true
  | .waitCall _ => true
  | .receiverCall _ _ => true
  | _ => false

/-- The inner `flatten` of `flatten_seq` (lib.rs lines 908-914):
`flatten(Sequence(s)) = concat(map(flatten, s))`, `flatten(m) = [m]`
otherwise.  The list recursion of `flat_map` is unrolled so that the
recursion is plainly well-founded. -/
def flatten : QueueMsg E D F M W A → List (QueueMsg E D F M W A)
  | .Sequence [] => []
  | .Sequence (x :: xs) => flatten x ++ flatten (.Sequence xs)
  | m => [m]

/-- The combinator `flatten_seq` (lib.rs lines 907-923): flatten, then collapse a
singleton to its element, otherwise rebuild a `Sequence`. -/
def flattenSeq (m : QueueMsg E D F M W A) : QueueMsg E D F M W A :=
  match flatten m with
  | [x] => x
  | xs => .Sequence xs

/-- One step of the reducer: `QueueMsg::handle` (lib.rs lines 335-469).
`now` is the reading of the `now()` time source (unix seconds, u64);
the result component mirrors `Result<Option<QueueMsg<T>>, Error>`.
The one-second polling sleep in the `DeferUntil` arm and the
`tokio` suspension points have no observable effect in this model beyond
the returned value. -/
def step (now : Nat) (h : Handlers E D F M W A Err) :
    QueueMsg E D F M W A →
      List (Trace E D F M W A Err) × Except Err (Option (QueueMsg E D F M W A))
  | .Event e => ([.eventCall e], .ok (some (h.event e)))
  | .Data d => ([.strayDataLog d], .ok none)
  | .Fetch f => ([.fetchCall f], .ok (some (h.fetch f)))
  | .Msg m =>
    match h.msg m with
    | .ok _ => ([.msgCall m], .ok none)
    | .error e => ([.msgCall m], .error e)
  | .Wait w => ([.waitCall w], .ok (some (h.wait w)))
  | .DeferUntil .Relative seconds =>
    ([], .ok (some (.DeferUntil .Absolute ((now + seconds) % 2 ^ 64))))
  | .DeferUntil .Absolute seconds =>
    if now < seconds then
      ([], .ok (some (.DeferUntil .Absolute seconds)))
    else
      ([], .ok none)
  | .Timeout timeout_timestamp msg =>
    if now > timeout_timestamp then
      ([.expiredLog], .ok none)
    else
      step now h msg
  | .Sequence [] => ([], .ok none)
  | .Sequence (msg :: queue) =>
    match step now h msg with
    | (tr, .ok (some m)) => (tr, .ok (some (flattenSeq (.Sequence (m :: queue)))))
    | (tr, .ok none) => (tr, .ok (some (flattenSeq (.Sequence queue))))
    | (tr, .error e) => (tr, .error e)
  | .Retry remaining msg =>
    match step now h msg with
    | (tr, .ok ok) => (tr, .ok ok)
    | (tr, .error e) =>
      if remaining > 0 then
        (tr ++ [.retryWarnLog e],
          .ok (some (.Sequence
            [.DeferUntil .Absolute ((now + 3) % 2 ^ 64),
             .Retry (remaining - 1) msg])))
      else
        (tr ++ [.retryFailLog], .error e)
  | .Aggregate [] data receiver =>
    ([.receiverCall receiver data], .ok (some (h.aggregate receiver data)))
  | .Aggregate (msg :: queue) data receiver =>
    match step now h msg with
    | (tr, .ok (some (.Data d))) =>
      (tr, .ok (some (.Aggregate queue (data ++ [d]) receiver)))
    | (tr, .ok (some m)) =>
      (tr, .ok (some (.Aggregate (queue ++ [m]) data receiver)))
    | (tr, .ok none) => (tr, .ok (some (.Aggregate queue data receiver)))
    | (tr, .error e) => (tr, .error e)
  | .Repeat 0 _ => ([], .ok none)
  | .Repeat (n + 1) msg =>
    ([], .ok (some (flattenSeq (.Sequence [msg, .Repeat n msg]))))
  | .Noop => ([], .ok none)

/-- Iterate `step` up to `n` times, accumulating traces; stops early when
a step yields no successor or an error (the outer run loop would stop
re-enqueueing).  This models the run loop of §2 driving a single
workflow. -/
def runSteps (now : Nat) (h : Handlers E D F M W A Err) :
    Nat → QueueMsg E D F M W A →
      List (Trace E D F M W A Err) × Except Err (Option (QueueMsg E D F M W A))
  | 0, m => ([], .ok (some m))
  | n + 1, m =>
    match step now h m with
    | (tr, .ok (some m')) =>
      let (tr', r) := runSteps now h n m'
      (tr ++ tr', r)
    | (tr, r) => (tr, r)

/-- A concrete instantiation of the handler capabilities (all payload
types `Nat`), used to exhibit satisfiability of hypotheses: the fetch
handler resolves directly to `Data` and the msg handler always fails. -/
def natHandlers : Handlers Nat Nat Nat Nat Nat Nat Nat where
  event := fun _ => .Noop
  fetch := fun x => .Data x
  msg := fun x => .error x
  wait := fun _ => .Noop
  aggregate := fun _ _ => .Noop

/-! ### The `Chains` store and its `GetChain` implementations -/

/-- The `Wasm<C>` wrapper chain (lib.rs line 1372). -/
structure Wasm (C : Type) : Type where
  inner : C
deriving DecidableEq

/-- The `Chains` store (lib.rs lines 294-301): four registry maps from chain id to
chain handle.  A `HashMap` is modelled as its lookup function
(`get : key → Option value`); the chain-handle and chain-id types
(`Evm<Minimal>`, `Evm<Mainnet>`, `Union`, `Cosmos` and their
`ChainIdOf`s, which live in external crates) are type parameters. -/
structure Chains (CidEvmMin CidEvmMain CidUnion CidCosmos
    EvmMin EvmMain Union Cosmos : Type) : Type where
  evm_minimal : CidEvmMin → Option EvmMin
  evm_mainnet : CidEvmMain → Option EvmMain
  union : CidUnion → Option Union
  cosmos : CidCosmos → Option Cosmos

section GetChain

variable {CidEvmMin CidEvmMain CidUnion CidCosmos EvmMin EvmMain Union Cosmos : Type}

/-- Rust `impl GetChain<Wasm<Union>> for Chains` (lib.rs 303-307):
`Wasm(self.union.get(chain_id).unwrap().clone())`.  The `unwrap` of the
`HashMap` lookup is modelled by `Option`: a `none` result is the panic. -/
def getChainWasmUnion
    (c : Chains CidEvmMin CidEvmMain CidUnion CidCosmos EvmMin EvmMain Union Cosmos)
    (chain_id : CidUnion) : Option (Wasm Union) :=
  (c.union chain_id).map Wasm.mk

/-- Rust `impl GetChain<Wasm<Cosmos>> for Chains` (lib.rs 309-313). -/
def getChainWasmCosmos
    (c : Chains CidEvmMin CidEvmMain CidUnion CidCosmos EvmMin EvmMain Union Cosmos)
    (chain_id : CidCosmos) : Option (Wasm Cosmos) :=
  (c.cosmos chain_id).map Wasm.mk

/-- Rust `impl GetChain<Union> for Chains` (lib.rs 315-319). -/
def getChainUnion
    (c : Chains CidEvmMin CidEvmMain CidUnion CidCosmos EvmMin EvmMain Union Cosmos)
    (chain_id : CidUnion) : Option Union :=
  c.union chain_id

/-- Rust `impl GetChain<Evm<Minimal>> for Chains` (lib.rs 321-325). -/
def getChainEvmMinimal
    (c : Chains CidEvmMin CidEvmMain CidUnion CidCosmos EvmMin EvmMain Union Cosmos)
    (chain_id : CidEvmMin) : Option EvmMin :=
  c.evm_minimal chain_id

/-- Rust `impl GetChain<Evm<Mainnet>> for Chains` (lib.rs 327-331). -/
def getChainEvmMainnet
    (c : Chains CidEvmMin CidEvmMain CidUnion CidCosmos EvmMin EvmMain Union Cosmos)
    (chain_id : CidEvmMain) : Option EvmMain :=
  c.evm_mainnet chain_id

end GetChain

/-- An empty registry at concrete types, for satisfiability of the
absent-chain-id hypotheses. -/
def emptyChains : Chains Nat Nat Nat Nat Nat Nat Nat Nat where
  evm_minimal := fun _ => none
  evm_mainnet := fun _ => none
  union := fun _ => none
  cosmos := fun _ => none

/-! ### Serialization model

`QueueMsg` is serialized by a serde derive with
`tag = "@type", content = "@value", rename_all = "snake_case",
deny_unknown_fields` (lib.rs lines 89-97); identified values are
serialized through the untagged `AnyLightClientIdentifiedSerde` /
`Inner` pair (lib.rs lines 708-790, 1772-1794).  The wire format is a
JSON value; we model the JSON data of this program with `Nat` numbers
(all numeric fields are `u64`/`u8`) and objects as association lists.
The behaviour of the serde *derive* itself (field lookup independent of
order, rejection of unknown and missing fields, first-match semantics of
untagged enums, exact-string matching of `from_str_exact`) is external
library code; it is modelled here following the shapes stated in the
specification (§6.1). -/

inductive Json : Type where
  | null
  | str (s : String)
  | num (n : Nat)
  | arr (elems : List Json)
  | obj (fields : List (String × Json))

/-- Look a field up in a JSON object by key (first occurrence). -/
def getF : List (String × Json) → String → Option Json
  | [], _ => none
  | (k, v) :: rest, key => if k = key then some v else getF rest key

/-- Models `deny_unknown_fields`: every key present is one of the allowed
keys. -/
def keysOk (allowed : List String) : List (String × Json) → Bool
  | [] => true
  | (k, _) :: rest => allowed.contains k && keysOk allowed rest

/-- A (de)serializer pair for a payload type, abstracting the
`Serialize`/`Deserialize` instances of the payload types
(`T::Event`, `T::Data`, ..., chain ids, `InnerOf<T, Hc, Tr>`). -/
structure Codec (α : Type) : Type where
  ser : α → Json
  de : Json → Option α

/-- The codecs for the six payload types of a `QueueMsgTypes`
instantiation. -/
structure QMSerde (E D F M W A : Type) : Type where
  cE : Codec E
  cD : Codec D
  cF : Codec F
  cM : Codec M
  cW : Codec W
  cA : Codec A

/-- A `DeferPoint` serializes as an externally tagged unit variant in
`snake_case` (lib.rs lines 82-87): the plain strings `"absolute"` /
`"relative"`. -/
def serDeferPoint : DeferPoint → Json
  | .Absolute => .str ("absolute")
  | .Relative => .str ("relative")

def deDeferPoint : Json → Option DeferPoint
  | .str ("absolute") => some DeferPoint.Absolute
  | .str ("relative") => some DeferPoint.Relative
  | _ => none

/-- Deserialize a JSON array of non-recursive payloads (the `data`
deque of an `Aggregate`) element by element, failing if any element
fails. -/
def dePayloadList {α : Type} (c : Codec α) : List Json → Option (List α)
  | [] => some []
  | j :: js =>
    match c.de j, dePayloadList c js with
    | some a, some as => some (a :: as)
    | _, _ => none

mutual

/-- Serialization of `QueueMsg` (the derive on lib.rs lines 89-97):
`{ "@type": <snake_case variant>, "@value": <payload> }`; struct
variants serialize their fields as an object, `Sequence` as an array,
the unit variant `Noop` with no `"@value"` key. -/
def serQM {E D F M W A : Type} (S : QMSerde E D F M W A) :
    QueueMsg E D F M W A → Json
  | .Event e => .obj [("@type", .str ("event")), ("@value", S.cE.ser e)]
  | .Data d => .obj [("@type", .str ("data")), ("@value", S.cD.ser d)]
  | .Fetch f => .obj [("@type", .str ("fetch")), ("@value", S.cF.ser f)]
  | .Msg m => .obj [("@type", .str ("msg")), ("@value", S.cM.ser m)]
  | .Wait w => .obj [("@type", .str ("wait")), ("@value", S.cW.ser w)]
  | .DeferUntil point seconds =>
    .obj [("@type", .str ("defer_until")),
      ("@value", .obj [("point", serDeferPoint point),
        ("seconds", .num seconds)])]
  | .Repeat times msg =>
    .obj [("@type", .str ("repeat")),
      ("@value", .obj [("times", .num times), ("msg", serQM S msg)])]
  | .Timeout timeout_timestamp msg =>
    .obj [("@type", .str ("timeout")),
      ("@value", .obj [("timeout_timestamp", .num timeout_timestamp),
        ("msg", serQM S msg)])]
  | .Sequence queue =>
    .obj [("@type", .str ("sequence")), ("@value", .arr (serQMList S queue))]
  | .Retry remaining msg =>
    .obj [("@type", .str ("retry")),
      ("@value", .obj [("remaining", .num remaining), ("msg", serQM S msg)])]
  | .Aggregate queue data receiver =>
    .obj [("@type", .str ("aggregate")),
      ("@value", .obj [("queue", .arr (serQMList S queue)),
        ("data", .arr (data.map S.cD.ser)),
        ("receiver", S.cA.ser receiver)])]
  | .Noop => .obj [("@type", .str ("noop"))]

def serQMList {E D F M W A : Type} (S : QMSerde E D F M W A) :
    List (QueueMsg E D F M W A) → List Json
  | [] => []
  | x :: xs => serQM S x :: serQMList S xs

end

mutual

/-- Fuel-indexed deserialization of `QueueMsg`; the public entry point
`deserializeQM` supplies `sizeOf` of the input as fuel, which always
suffices since every recursive call descends into a strictly smaller
JSON value.  Unknown fields anywhere are rejected (`keysOk`), missing
fields fail the lookups, and field order is irrelevant. -/
def deQMF {E D F M W A : Type} (S : QMSerde E D F M W A) :
    Nat → Json → Option (QueueMsg E D F M W A)
  | 0, _ => none
  | fuel + 1, .obj fields =>
    if keysOk ["@type", "@value"] fields = true then
      match getF fields ("@type") with
      | some (.str tag) =>
        if tag = "event" then
          match getF fields ("@value") with
          | some v => (S.cE.de v).map .Event
          | none => none
        else if tag = "data" then
          match getF fields ("@value") with
          | some v => (S.cD.de v).map .Data
          | none => none
        else if tag = "fetch" then
          match getF fields ("@value") with
          | some v => (S.cF.de v).map .Fetch
          | none => none
        else if tag = "msg" then
          match getF fields ("@value") with
          | some v => (S.cM.de v).map .Msg
          | none => none
        else if tag = "wait" then
          match getF fields ("@value") with
          | some v => (S.cW.de v).map .Wait
          | none => none
        else if tag = "defer_until" then
          match getF fields ("@value") with
          | some (.obj pf) =>
            if keysOk ["point", "seconds"] pf = true then
              match getF pf ("point"), getF pf ("seconds") with
              | some pj, some (.num s) =>
                (deDeferPoint pj).map (fun p => .DeferUntil p s)
              | _, _ => none
            else none
          | _ => none
        else if tag = "repeat" then
          match getF fields ("@value") with
          | some (.obj pf) =>
            if keysOk ["times", "msg"] pf = true then
              match getF pf ("times"), getF pf ("msg") with
              | some (.num t), some mj => (deQMF S fuel mj).map (.Repeat t)
              | _, _ => none
            else none
          | _ => none
        else if tag = "timeout" then
          match getF fields ("@value") with
          | some (.obj pf) =>
            if keysOk ["timeout_timestamp", "msg"] pf = true then
              match getF pf ("timeout_timestamp"), getF pf ("msg") with
              | some (.num t), some mj => (deQMF S fuel mj).map (.Timeout t)
              | _, _ => none
            else none
          | _ => none
        else if tag = "sequence" then
          match getF fields ("@value") with
          | some (.arr js) => (deQMLF S fuel js).map .Sequence
          | _ => none
        else if tag = "retry" then
          match getF fields ("@value") with
          | some (.obj pf) =>
            if keysOk ["remaining", "msg"] pf = true then
              match getF pf ("remaining"), getF pf ("msg") with
              | some (.num r), some mj => (deQMF S fuel mj).map (.Retry r)
              | _, _ => none
            else none
          | _ => none
        else if tag = "aggregate" then
          match getF fields ("@value") with
          | some (.obj pf) =>
            if keysOk ["queue", "data", "receiver"] pf = true then
              match getF pf ("queue"), getF pf ("data"), getF pf ("receiver") with
              | some (.arr qjs), some (.arr djs), some rj =>
                match deQMLF S fuel qjs, dePayloadList S.cD djs, S.cA.de rj with
                | some q, some ds, some r => some (.Aggregate q ds r)
                | _, _, _ => none
              | _, _, _ => none
            else none
          | _ => none
        else if tag = "noop" then
          match getF fields ("@value") with
          | none => some .Noop
          | some _ => none
        else none
      | _ => none
    else none
  | _ + 1, _ => none

def deQMLF {E D F M W A : Type} (S : QMSerde E D F M W A) :
    Nat → List Json → Option (List (QueueMsg E D F M W A))
  | _, [] => some []
  | 0, _ :: _ => none
  | fuel + 1, j :: js =>
    match deQMF S fuel j, deQMLF S fuel js with
    | some m, some ms => some (m :: ms)
    | _, _ => none

end

mutual

/-- Size of a JSON value, used as (always sufficient) fuel for the
deserializer. -/
def jsonSize : Json → Nat
  | .null => 1
  | .str _ => 1
  | .num _ => 1
  | .arr elems => 1 + jsonSizeL elems
  | .obj fields => 1 + jsonSizeF fields

def jsonSizeL : List Json → Nat
  | [] => 0
  | j :: js => 1 + jsonSize j + jsonSizeL js

def jsonSizeF : List (String × Json) → Nat
  | [] => 0
  | kv :: rest => 1 + jsonSize kv.2 + jsonSizeF rest

end

/-- The deserializer: run the fuelled recursion with the size of the
input as fuel. -/
def deserializeQM {E D F M W A : Type} (S : QMSerde E D F M W A)
    (j : Json) : Option (QueueMsg E D F M W A) :=
  deQMF S (jsonSize j) j

/-! ### The identified-payload dispatch layer -/

/-- The struct `Identified<Hc, Tr, T>` (lib.rs lines 816-822): a payload tagged
with its chain id.  The `PhantomData<fn() -> Tr>` witness is erased; the
Rust `PartialEq` already ignores it (lib.rs lines 824-828).  `Cid` is
`ChainIdOf<Hc>` and `P` the payload type. -/
structure Identified (Cid P : Type) : Type where
  chain_id : Cid
  t : P
deriving DecidableEq

/-- The enum `AnyLightClientIdentified<T>` (lib.rs lines 687-706): the closed sum
over the six supported chain pairs.  `CidU` is the chain id type of
`Union` (also of `Wasm<Union>`: `Wasm<Hc>` forwards `chain_id` to `Hc`,
lib.rs lines 1444-1446), `CidEM`/`CidEm`/`CidC` those of
`Evm<Mainnet>`/`Evm<Minimal>`/`Cosmos`; `P1..P6` are the six payload
instantiations `InnerOf<T, Hc, Tr>`. -/
inductive AnyLightClientIdentified
    (CidU CidEM CidEm CidC P1 P2 P3 P4 P5 P6 : Type) : Type where
  | EvmMainnetOnUnion (v : Identified CidU P1)
  | UnionOnEvmMainnet (v : Identified CidEM P2)
  | EvmMinimalOnUnion (v : Identified CidU P3)
  | UnionOnEvmMinimal (v : Identified CidEm P4)
  | CosmosOnUnion (v : Identified CidU P5)
  | UnionOnCosmos (v : Identified CidC P6)
deriving DecidableEq

/-- Codecs and chain-type tag strings needed to serialize an
`AnyLightClientIdentified`.  The tag strings are the
`Hc::ChainType` marker strings (`@host_chain` / `@tracking`
discriminators).  Modelled from the spec: the concrete marker types live
in the external `unionlabs` crate; §6.3 fixes that the six chain-pair
tags are distinct, which here follows from distinctness of the four
chain tags (stated as hypotheses of the round-trip theorem).  Note
`Wasm<Hc>` shares `ChainType` with `Hc` (lib.rs line 1423). -/
structure AnySerde (CidU CidEM CidEm CidC P1 P2 P3 P4 P5 P6 : Type) : Type where
  tagUnion : String
  tagEvmMainnet : String
  tagEvmMinimal : String
  tagCosmos : String
  cCidU : Codec CidU
  cCidEM : Codec CidEM
  cCidEm : Codec CidEm
  cCidC : Codec CidC
  cP1 : Codec P1
  cP2 : Codec P2
  cP3 : Codec P3
  cP4 : Codec P4
  cP5 : Codec P5
  cP6 : Codec P6

/-- Serialization of `Identified` (derive on lib.rs lines 806-822,
`deny_unknown_fields`; the `__marker` field is `#[serde(skip)]`). -/
def serIdentified {Cid P : Type} (cCid : Codec Cid) (cP : Codec P)
    (x : Identified Cid P) : Json :=
  .obj [("chain_id", cCid.ser x.chain_id), ("t", cP.ser x.t)]

def deIdentified {Cid P : Type} (cCid : Codec Cid) (cP : Codec P) :
    Json → Option (Identified Cid P)
  | .obj fields =>
    if keysOk ["chain_id", "t"] fields = true then
      match getF fields ("chain_id"), getF fields ("t") with
      | some cj, some tj =>
        match cCid.de cj, cP.de tj with
        | some i, some p => some ⟨i, p⟩
        | _, _ => none
      | _, _ => none
    else none
  | _ => none

/-- The `Inner` wrapper (lib.rs lines 1772-1794):
`{ "@host_chain": tag, "@tracking": tag, "@value": inner }`. -/
def serInner (hostTag trackingTag : String) (inner : Json) : Json :=
  .obj [("@host_chain", .str hostTag), ("@tracking", .str trackingTag),
    ("@value", inner)]

/-- Deserialization of `Inner`: the two discriminators are matched with
`from_str_exact` (only the exact tag string is accepted), unknown fields
are rejected. -/
def deInner (hostTag trackingTag : String) : Json → Option Json
  | .obj fields =>
    if keysOk ["@host_chain", "@tracking", "@value"] fields = true then
      match getF fields ("@host_chain"), getF fields ("@tracking"),
          getF fields ("@value") with
      | some (.str h), some (.str t), some v =>
        if h = hostTag then
          if t = trackingTag then some v else none
        else none
      | _, _, _ => none
    else none
  | _ => none

section AnySerdeDefs

variable {CidU CidEM CidEm CidC P1 P2 P3 P4 P5 P6 : Type}

/-- Serialization of `AnyLightClientIdentified` through
`AnyLightClientIdentifiedSerde` (lib.rs lines 758-777): each variant
becomes an `Inner` with the host/tracking chain tags of its chain
pair. -/
def serAny (S : AnySerde CidU CidEM CidEm CidC P1 P2 P3 P4 P5 P6) :
    AnyLightClientIdentified CidU CidEM CidEm CidC P1 P2 P3 P4 P5 P6 → Json
  | .EvmMainnetOnUnion x =>
    serInner S.tagUnion S.tagEvmMainnet (serIdentified S.cCidU S.cP1 x)
  | .UnionOnEvmMainnet x =>
    serInner S.tagEvmMainnet S.tagUnion (serIdentified S.cCidEM S.cP2 x)
  | .EvmMinimalOnUnion x =>
    serInner S.tagUnion S.tagEvmMinimal (serIdentified S.cCidU S.cP3 x)
  | .UnionOnEvmMinimal x =>
    serInner S.tagEvmMinimal S.tagUnion (serIdentified S.cCidEm S.cP4 x)
  | .CosmosOnUnion x =>
    serInner S.tagUnion S.tagCosmos (serIdentified S.cCidU S.cP5 x)
  | .UnionOnCosmos x =>
    serInner S.tagCosmos S.tagUnion (serIdentified S.cCidC S.cP6 x)

/-- Deserialization of `AnyLightClientIdentified`: the serde container
is `untagged` (lib.rs line 709), so the six variants are tried in
declaration order and the first success wins. -/
def deAny (S : AnySerde CidU CidEM CidEm CidC P1 P2 P3 P4 P5 P6)
    (j : Json) :
    Option (AnyLightClientIdentified CidU CidEM CidEm CidC P1 P2 P3 P4 P5 P6) :=
  match (deInner S.tagUnion S.tagEvmMainnet j).bind
      (deIdentified S.cCidU S.cP1) with
  | some x => some (.EvmMainnetOnUnion x)
  | none =>
  match (deInner S.tagEvmMainnet S.tagUnion j).bind
      (deIdentified S.cCidEM S.cP2) with
  | some x => some (.UnionOnEvmMainnet x)
  | none =>
  match (deInner S.tagUnion S.tagEvmMinimal j).bind
      (deIdentified S.cCidU S.cP3) with
  | some x => some (.EvmMinimalOnUnion x)
  | none =>
  match (deInner S.tagEvmMinimal S.tagUnion j).bind
      (deIdentified S.cCidEm S.cP4) with
  | some x => some (.UnionOnEvmMinimal x)
  | none =>
  match (deInner S.tagUnion S.tagCosmos j).bind
      (deIdentified S.cCidU S.cP5) with
  | some x => some (.CosmosOnUnion x)
  | none =>
  match (deInner S.tagCosmos S.tagUnion j).bind
      (deIdentified S.cCidC S.cP6) with
  | some x => some (.UnionOnCosmos x)
  | none => none

end AnySerdeDefs

/-- A codec for `Nat` payloads, for satisfiability witnesses. -/
def natCodec : Codec Nat where
  ser := Json.num
  de := fun j => match j with | .num n => some n | _ => none

/-- A `QMSerde` with every payload a `Nat`. -/
def natQMSerde : QMSerde Nat Nat Nat Nat Nat Nat where
  cE := natCodec
  cD := natCodec
  cF := natCodec
  cM := natCodec
  cW := natCodec
  cA := natCodec

/-- An `AnySerde` with every payload a `Nat` and distinct chain tags. -/
def natAnySerde : AnySerde Nat Nat Nat Nat Nat Nat Nat Nat Nat Nat where
  tagUnion := "union"
  tagEvmMainnet := "evm-mainnet"
  tagEvmMinimal := "evm-minimal"
  tagCosmos := "cosmos"
  cCidU := natCodec
  cCidEM := natCodec
  cCidEm := natCodec
  cCidC := natCodec
  cP1 := natCodec
  cP2 := natCodec
  cP3 := natCodec
  cP4 := natCodec
  cP5 := natCodec
  cP6 := natCodec

/-! ## Theorems -/

section FlattenLemmas

variable {E D F M W A : Type}

theorem flatten_of_not_sequence (m : QueueMsg E D F M W A)
    (h1 : m = QueueMsg.Sequence [] → False)
    (h2 : ∀ (x : QueueMsg E D F M W A) (xs : List (QueueMsg E D F M W A)),
      m = QueueMsg.Sequence (x :: xs) → False) :
    flatten m = [m] := by
  cases m
  case Sequence q =>
    cases q with
    | nil => exact absurd rfl h1
    | cons x xs => exact absurd rfl (h2 x xs)
  all_goals simp [flatten]

/-- Every element of `flatten m` is a non-`Sequence` leaf, so it
flattens to itself. -/
theorem mem_flatten_eq (m : QueueMsg E D F M W A) :
    ∀ x ∈ flatten m, flatten x = [x] := by
  induction m using flatten.induct with
  | case1 =>
    intro y hy
    simp [flatten] at hy
  | case2 x xs ih1 ih2 =>
    intro y hy
    rw [show flatten (QueueMsg.Sequence (x :: xs))
        = flatten x ++ flatten (QueueMsg.Sequence xs) from by simp [flatten]] at hy
    rcases List.mem_append.mp hy with hy | hy
    · exact ih1 y hy
    · exact ih2 y hy
  | case3 m h1 h2 =>
    intro y hy
    rw [flatten_of_not_sequence m h1 h2] at hy
    simp at hy
    subst hy
    exact flatten_of_not_sequence _ h1 h2

theorem flatten_sequence_eq_self (xs : List (QueueMsg E D F M W A))
    (h : ∀ x ∈ xs, flatten x = [x]) :
    flatten (QueueMsg.Sequence xs) = xs := by
  induction xs with
  | nil => simp [flatten]
  | cons x xs ih =>
    have hx := h x (by simp)
    have hxs := ih (fun y hy => h y (by simp [hy]))
    simp [flatten, hx, hxs]

end FlattenLemmas

/-- C4: `flatten_seq` is idempotent: for every queue message `m`,
`flatten_seq(flatten_seq(m)) == flatten_seq(m)`. -/
theorem flattenSeq_idempotent {E D F M W A : Type}
    (m : QueueMsg E D F M W A) :
    flattenSeq (flattenSeq m) = flattenSeq m := by
  rcases hfm : flatten m with _ | ⟨x, _ | ⟨y, ys⟩⟩
  · have h1 : flattenSeq m = .Sequence [] := by
      unfold flattenSeq
      rw [hfm]
    rw [h1]
    unfold flattenSeq
    simp [flatten]
  · have hx : flatten x = [x] := mem_flatten_eq m x (by rw [hfm]; simp)
    have h1 : flattenSeq m = x := by
      unfold flattenSeq
      rw [hfm]
    rw [h1]
    unfold flattenSeq
    rw [hx]
  · have h1 : flattenSeq m = .Sequence (x :: y :: ys) := by
      unfold flattenSeq
      rw [hfm]
    have h2 : flatten (QueueMsg.Sequence (x :: y :: ys)) = x :: y :: ys := by
      apply flatten_sequence_eq_self
      intro z hz
      exact mem_flatten_eq m z (by rw [hfm]; exact hz)
    rw [h1]
    unfold flattenSeq
    rw [h2]

/-- C5: stepping `DeferUntil { point: Absolute, seconds: t }` at a time
`now < t` returns the same deferral message (the one-second polling
sleep has no further observable effect), and at `now ≥ t` it returns no
successor — so the deferral never completes before `now() ≥ t`
(lib.rs lines 369-379). -/
theorem deferUntil_absolute_lower_bound {E D F M W A Err : Type}
    (now t : Nat) (h : Handlers E D F M W A Err) :
    (now < t → step now h (.DeferUntil .Absolute t)
      = ([], .ok (some (.DeferUntil .Absolute t)))) ∧
    (t ≤ now → step now h (.DeferUntil .Absolute t) = ([], .ok none)) := by
  constructor
  · intro hlt
    simp [step, hlt]
  · intro hle
    simp [step, Nat.not_lt.mpr hle]

/-- Witness for C5 at concrete inputs. -/
theorem deferUntil_absolute_lower_bound_witness :
    (step 3 natHandlers (.DeferUntil .Absolute 5)
      = ([], .ok (some (.DeferUntil .Absolute 5)))) ∧
    (step 7 natHandlers (.DeferUntil .Absolute 5) = ([], .ok none)) :=
  ⟨(deferUntil_absolute_lower_bound 3 5 natHandlers).1 (by decide),
   (deferUntil_absolute_lower_bound 7 5 natHandlers).2 (by decide)⟩

/-- C6: stepping `Timeout { timeout_timestamp: d, msg: m }` at
`now > d` returns no successor, emitting only the expiry warning — no
handler of `m` is invoked; at `now ≤ d` it is exactly a recursive step
of `m` (lib.rs lines 380-392). -/
theorem timeout_expiry {E D F M W A Err : Type}
    (now d : Nat) (m : QueueMsg E D F M W A) (h : Handlers E D F M W A Err) :
    (d < now → step now h (.Timeout d m) = ([.expiredLog], .ok none) ∧
      (step now h (.Timeout d m)).1.any Trace.isHandlerCall = false) ∧
    (now ≤ d → step now h (.Timeout d m) = step now h m) := by
  constructor
  · intro hd
    have hstep : step now h (.Timeout d m) = ([.expiredLog], .ok none) := by
      simp [step, hd]
    exact ⟨hstep, by rw [hstep]; rfl⟩
  · intro hd
    simp [step, Nat.not_lt.mpr hd]

/-- Witness for C6 at concrete inputs (cf. scenario S6: deadline 100,
now 200). -/
theorem timeout_expiry_witness :
    (step 200 natHandlers (.Timeout 100 (.Msg 1)) = ([.expiredLog], .ok none) ∧
      (step 200 natHandlers (.Timeout 100 (.Msg 1))).1.any Trace.isHandlerCall
        = false) ∧
    step 50 natHandlers (.Timeout 100 (.Msg 1)) = step 50 natHandlers (.Msg 1) :=
  ⟨(timeout_expiry 200 100 (.Msg 1) natHandlers).1 (by decide),
   (timeout_expiry 50 100 (.Msg 1) natHandlers).2 (by decide)⟩

/-- C7: `Repeat { times: 0, msg }` terminates with no successor, no
trace, and no handler invocation; for `n > 0`,
`Repeat { times: n, msg }` steps to
`Some(flatten_seq(Sequence([msg, Repeat{times: n-1, msg}])))`
(lib.rs lines 456-463). -/
theorem repeat_unfold {E D F M W A Err : Type}
    (now n : Nat) (m : QueueMsg E D F M W A) (h : Handlers E D F M W A Err) :
    (step now h (.Repeat 0 m) = ([], .ok none)) ∧
    (0 < n → step now h (.Repeat n m)
      = ([], .ok (some (flattenSeq (.Sequence [m, .Repeat (n - 1) m]))))) := by
  constructor
  · simp [step]
  · intro hn
    obtain ⟨k, rfl⟩ : ∃ k, n = k + 1 := ⟨n - 1, by omega⟩
    simp [step]

/-- Witness for C7 at concrete inputs. -/
theorem repeat_unfold_witness :
    0 < 3 ∧
    step 0 natHandlers (.Repeat 3 .Noop)
      = ([], .ok (some (flattenSeq (.Sequence [.Noop, .Repeat 2 .Noop])))) :=
  ⟨by decide, (repeat_unfold 0 3 .Noop natHandlers).2 (by decide)⟩

/-- C8: stepping a top-level `Data(d)` yields no successor, emits
exactly the error-level "received data outside of an aggregation" log
naming the datum, invokes no handler, and does not crash the reducer
(the result is `Ok(None)`, not an error) — lib.rs lines 349-356. -/
theorem stray_data_logged_and_dropped {E D F M W A Err : Type}
    (now : Nat) (d : D) (h : Handlers E D F M W A Err) :
    step now h (.Data d) = ([.strayDataLog d], .ok none) ∧
    (step now h (.Data d)).1.any Trace.isHandlerCall = false := by
  constructor
  · simp [step]
  · simp [step, Trace.isHandlerCall]

/-- C2: with a message whose handler errs on every attempt, each step of
`Retry { remaining: r, msg }` with `r > 0` observes exactly one error
(one `msgCall` in the trace) and produces the successor
`Sequence([DeferUntil{Absolute, now()+3}, Retry{remaining: r-1, msg}])`
with the original `msg` unchanged; at `remaining = 0` the step returns
`Err` (lib.rs lines 405-431).  Chaining these equations from
`Retry { remaining: n, msg }`: the k-th error observation (k = 1..n)
yields the successor containing `Retry{n-k, msg}`, and after those `n`
observations the next attempt surfaces the error — exactly the
trajectory of scenario S2. -/
theorem retry_unfold_and_surface {E D F M W A Err : Type}
    (now r : Nat) (h : Handlers E D F M W A Err) (x : M) (e : Err)
    (hmsg : h.msg x = .error e) (hnow : now + 3 < 2 ^ 64) :
    (0 < r → step now h (.Retry r (.Msg x))
      = ([.msgCall x, .retryWarnLog e],
        .ok (some (.Sequence
          [.DeferUntil .Absolute (now + 3), .Retry (r - 1) (.Msg x)])))) ∧
    step now h (.Retry 0 (.Msg x))
      = ([.msgCall x, .retryFailLog], .error e) := by
  have hN : (2 : Nat) ^ 64 = 18446744073709551616 := by norm_num
  rw [hN] at hnow
  have hmod : (now + 3) % 18446744073709551616 = now + 3 :=
    Nat.mod_eq_of_lt hnow
  constructor
  · intro hr
    simp [step, hmsg, hr, hmod, hN]
  · simp [step, hmsg]

/-- Witness for C2 at concrete inputs (`natHandlers.msg` always errs). -/
theorem retry_unfold_and_surface_witness :
    natHandlers.msg 7 = .error 7 ∧
    step 100 natHandlers (.Retry 2 (.Msg 7))
      = ([.msgCall 7, .retryWarnLog 7],
        .ok (some (.Sequence
          [.DeferUntil .Absolute 103, .Retry 1 (.Msg 7)]))) ∧
    step 100 natHandlers (.Retry 0 (.Msg 7))
      = ([.msgCall 7, .retryFailLog], .error 7) :=
  ⟨rfl,
   (retry_unfold_and_surface 100 2 natHandlers 7 7 rfl (by decide)).1 (by decide),
   (retry_unfold_and_surface 100 0 natHandlers 7 7 rfl (by decide)).2⟩

/-- C10: the `Relative → Absolute` deferral rewrite computes
`now() + seconds` with wrapping u64 addition (lib.rs lines 365-368);
whenever `seconds > u64::MAX - now()` the sum wraps modulo `2^64` to a
value strictly below `now()`, so the produced absolute deferral is
already past and completes immediately (stepping it returns no
successor) instead of deferring into the far future. -/
theorem relative_defer_overflow {E D F M W A Err : Type}
    (now s : Nat) (h : Handlers E D F M W A Err)
    (hn : now < 2 ^ 64) (hs : s < 2 ^ 64) (ho : 2 ^ 64 - 1 - now < s) :
    (now + s) % 2 ^ 64 < now ∧
    step now h (.DeferUntil .Relative s)
      = ([], .ok (some (.DeferUntil .Absolute ((now + s) % 2 ^ 64)))) ∧
    step now h (.DeferUntil .Absolute ((now + s) % 2 ^ 64))
      = ([], .ok none) := by
  have hN : (2 : Nat) ^ 64 = 18446744073709551616 := by norm_num
  have hlt : (now + s) % 2 ^ 64 < now := by
    rw [hN] at *
    omega
  refine ⟨hlt, ?_, ?_⟩
  · simp [step]
  · have hlt' := hlt
    rw [hN] at hlt'
    have hnot : ¬ now < (now + s) % 18446744073709551616 := by omega
    simp [step, hN, hnot]

/-- Witness for C10: `now = u64::MAX`, `seconds = 1` wraps to deadline
`0`, which is already past. -/
theorem relative_defer_overflow_witness :
    (2 ^ 64 - 1 + 1) % 2 ^ 64 < 2 ^ 64 - 1 ∧
    step (2 ^ 64 - 1) natHandlers (.DeferUntil .Relative 1)
      = ([], .ok (some (.DeferUntil .Absolute ((2 ^ 64 - 1 + 1) % 2 ^ 64)))) ∧
    step (2 ^ 64 - 1) natHandlers
        (.DeferUntil .Absolute ((2 ^ 64 - 1 + 1) % 2 ^ 64))
      = ([], .ok none) :=
  relative_defer_overflow (2 ^ 64 - 1) 1 natHandlers (by norm_num) (by norm_num)
    (by norm_num)

/-- C1 (counterexample): a `Data` arising inside a nested `Sequence` in
the inner queue of an `Aggregate` is NOT captured.  With inner queue
`[Sequence([Data 1, Data 2])]`, the first step handles `Data 1` in the
`Data` arm of the reducer — logging it as stray data and dropping it —
while the residue of the sequence, `Data 2`, surfaces as a bare successor and
is captured; the receiver is then invoked with `[2]` only, which is not
multiset-equal to the two `Data` values that the descendants of the queue
produced. -/
theorem aggregate_nested_sequence_data_dropped :
    runSteps 0 natHandlers 3
        (.Aggregate [.Sequence [.Data 1, .Data 2]] [] 0)
      = ([.strayDataLog 1, .receiverCall 0 [2]], .ok none) ∧
    ¬ (Multiset.ofList [(2 : Nat)] = Multiset.ofList [1, 2]) := by
  constructor
  · simp [runSteps, step, natHandlers, flattenSeq, flatten]
  · decide

/-- One unfolding of the run loop when the step yields a successor. -/
theorem runSteps_step_ok {E D F M W A Err : Type}
    (now : Nat) (h : Handlers E D F M W A Err) (n : Nat)
    (m m' : QueueMsg E D F M W A) (tr : List (Trace E D F M W A Err))
    (hs : step now h m = (tr, .ok (some m'))) :
    runSteps now h (n + 1) m
      = (tr ++ (runSteps now h n m').1, (runSteps now h n m').2) := by
  simp [runSteps, hs]

/-- C1 (amended): if every element of the inner queue steps directly to
`Some(Data dᵢ)` — here, `Fetch` leaves whose handler resolves to
`Data` — then running the aggregate to completion invokes
`receiver.handle` exactly once, with the initial data followed by the
produced `dᵢ` in queue order (in particular multiset-equal to the
produced `Data` values); lib.rs lines 432-455. -/
theorem aggregate_fanin_direct_data {E D F M W A Err : Type}
    (now : Nat) (h : Handlers E D F M W A Err) (g : F → D)
    (fs : List F) (ds : List D) (r : A)
    (hf : ∀ x ∈ fs, h.fetch x = .Data (g x)) :
    runSteps now h (fs.length + 1) (.Aggregate (fs.map .Fetch) ds r)
      = (fs.map .fetchCall ++ [.receiverCall r (ds ++ fs.map g)],
        .ok (some (h.aggregate r (ds ++ fs.map g)))) := by
  induction fs generalizing ds with
  | nil => simp [runSteps, step]
  | cons f fs ih =>
    have hd := hf f (by simp)
    have ht : ∀ x ∈ fs, h.fetch x = .Data (g x) := fun x hx => hf x (by simp [hx])
    have hstep : step now h (.Aggregate (.Fetch f :: fs.map .Fetch) ds r)
        = ([.fetchCall f], .ok (some (.Aggregate (fs.map .Fetch) (ds ++ [g f]) r))) := by
      simp [step, hd]
    simp only [List.map_cons, List.length_cons]
    rw [runSteps_step_ok _ _ _ _ _ _ hstep, ih (ds ++ [g f]) ht]
    simp

/-- Witness for C1 (amended) at concrete inputs (scenario S3: two
fetches resolving to two data values). -/
theorem aggregate_fanin_direct_data_witness :
    runSteps 0 natHandlers ([10, 20].length + 1)
        (.Aggregate ([10, 20].map .Fetch) [] 5)
      = ([10, 20].map .fetchCall
          ++ [.receiverCall 5 ([] ++ [10, 20].map id)],
        .ok (some (natHandlers.aggregate 5 ([] ++ [10, 20].map id)))) :=
  aggregate_fanin_direct_data 0 natHandlers id [10, 20] [] 5 (fun _ _ => rfl)

/-! ### Serde round-trip lemmas -/

theorem deDeferPoint_serDeferPoint (p : DeferPoint) :
    deDeferPoint (serDeferPoint p) = some p := by
  cases p <;> rfl

theorem dePayloadList_map {α : Type} (c : Codec α)
    (hc : ∀ a, c.de (c.ser a) = some a) (as : List α) :
    dePayloadList c (as.map c.ser) = some as := by
  induction as with
  | nil => rfl
  | cons a as ih => simp [dePayloadList, hc, ih]

/-- Joint fuelled round-trip: any fuel at least the size of the
serialized message suffices for the deserializer to invert the
serializer. -/
theorem deQMF_serQM_roundtrip {E D F M W A : Type} (S : QMSerde E D F M W A)
    (hE : ∀ a, S.cE.de (S.cE.ser a) = some a)
    (hD : ∀ a, S.cD.de (S.cD.ser a) = some a)
    (hF : ∀ a, S.cF.de (S.cF.ser a) = some a)
    (hM : ∀ a, S.cM.de (S.cM.ser a) = some a)
    (hW : ∀ a, S.cW.de (S.cW.ser a) = some a)
    (hA : ∀ a, S.cA.de (S.cA.ser a) = some a)
    (fuel : Nat) :
    (∀ m : QueueMsg E D F M W A, jsonSize (serQM S m) ≤ fuel →
      deQMF S fuel (serQM S m) = some m) ∧
    (∀ q : List (QueueMsg E D F M W A), jsonSizeL (serQMList S q) ≤ fuel →
      deQMLF S fuel (serQMList S q) = some q) := by
  induction fuel with
  | zero =>
    constructor
    · intro m hm
      exfalso
      cases m <;> simp [serQM, jsonSize, jsonSizeF, jsonSizeL] at hm
    · intro q hq
      cases q with
      | nil => rfl
      | cons x xs =>
        exfalso
        simp [serQMList, jsonSizeL] at hq
  | succ fuel ih =>
    obtain ⟨ih1, ih2⟩ := ih
    constructor
    · intro m hm
      cases m with
      | Event e => simp [serQM, deQMF, keysOk, getF, hE]
      | Data d => simp [serQM, deQMF, keysOk, getF, hD]
      | Fetch f => simp [serQM, deQMF, keysOk, getF, hF]
      | Msg m => simp [serQM, deQMF, keysOk, getF, hM]
      | Wait w => simp [serQM, deQMF, keysOk, getF, hW]
      | DeferUntil p s =>
        simp [serQM, deQMF, keysOk, getF, deDeferPoint_serDeferPoint]
      | Repeat t msg =>
        have hrec : jsonSize (serQM S msg) ≤ fuel := by
          simp [serQM, jsonSize, jsonSizeF] at hm
          omega
        simp [serQM, deQMF, keysOk, getF, ih1 msg hrec]
      | Timeout t msg =>
        have hrec : jsonSize (serQM S msg) ≤ fuel := by
          simp [serQM, jsonSize, jsonSizeF] at hm
          omega
        simp [serQM, deQMF, keysOk, getF, ih1 msg hrec]
      | Sequence q =>
        have hrec : jsonSizeL (serQMList S q) ≤ fuel := by
          simp [serQM, jsonSize, jsonSizeF] at hm
          omega
        simp [serQM, deQMF, keysOk, getF, ih2 q hrec]
      | Retry r msg =>
        have hrec : jsonSize (serQM S msg) ≤ fuel := by
          simp [serQM, jsonSize, jsonSizeF] at hm
          omega
        simp [serQM, deQMF, keysOk, getF, ih1 msg hrec]
      | Aggregate q ds r =>
        have hrec : jsonSizeL (serQMList S q) ≤ fuel := by
          simp [serQM, jsonSize, jsonSizeF] at hm
          omega
        simp [serQM, deQMF, keysOk, getF, ih2 q hrec,
          dePayloadList_map S.cD hD, hA]
      | Noop => simp [serQM, deQMF, keysOk, getF]
    · intro q hq
      cases q with
      | nil => rfl
      | cons x xs =>
        have h1 : jsonSize (serQM S x) ≤ fuel := by
          simp [serQMList, jsonSizeL] at hq
          omega
        have h2 : jsonSizeL (serQMList S xs) ≤ fuel := by
          simp [serQMList, jsonSizeL] at hq
          omega
        show deQMLF S (fuel + 1) (serQM S x :: serQMList S xs) = some (x :: xs)
        rw [show deQMLF S (fuel + 1) (serQM S x :: serQMList S xs)
            = match deQMF S fuel (serQM S x), deQMLF S fuel (serQMList S xs) with
              | some m, some ms => some (m :: ms)
              | _, _ => none from rfl,
          ih1 x h1, ih2 xs h2]

theorem deIdentified_serIdentified {Cid P : Type} (cCid : Codec Cid)
    (cP : Codec P) (hCid : ∀ a, cCid.de (cCid.ser a) = some a)
    (hP : ∀ a, cP.de (cP.ser a) = some a) (x : Identified Cid P) :
    deIdentified cCid cP (serIdentified cCid cP x) = some x := by
  simp [serIdentified, deIdentified, keysOk, getF, hCid, hP]

theorem deInner_serInner_self (hostTag trackingTag : String) (inner : Json) :
    deInner hostTag trackingTag (serInner hostTag trackingTag inner)
      = some inner := by
  simp [serInner, deInner, keysOk, getF]

/-- Tag exactness: `from_str_exact` rejects a wrong tag: an `Inner` serialized with a
different host or tracking tag never deserializes. -/
theorem deInner_serInner_mismatch (hS tS hE tE : String) (inner : Json)
    (hne : hS ≠ hE ∨ tS ≠ tE) :
    deInner hE tE (serInner hS tS inner) = none := by
  rcases hne with hne | hne <;> simp [serInner, deInner, keysOk, getF, hne]

/-- C3: serde round-trip.  For every queue message `m`,
`deserialize(serialize(m)) = m`, where serialization is the
`@type`/`@value` adjacently tagged form and deserialization rejects
unknown fields; and for every `AnyLightClientIdentified` value over the
six supported chain pairs, the untagged `@host_chain`/`@tracking`
serialization round-trips.  Hypotheses: the payload codecs round-trip
and the four chain-type tag strings are pairwise distinct (the latter is
modelled from the spec, §6.3: the marker strings live in the external
`unionlabs` crate).  The final conjunct exhibits the rejection of an
unknown field. -/
theorem qm_any_serde_roundtrip {E D F M W A : Type} (S : QMSerde E D F M W A)
    (hE : ∀ a, S.cE.de (S.cE.ser a) = some a)
    (hD : ∀ a, S.cD.de (S.cD.ser a) = some a)
    (hF : ∀ a, S.cF.de (S.cF.ser a) = some a)
    (hM : ∀ a, S.cM.de (S.cM.ser a) = some a)
    (hW : ∀ a, S.cW.de (S.cW.ser a) = some a)
    (hA : ∀ a, S.cA.de (S.cA.ser a) = some a)
    {CidU CidEM CidEm CidC P1 P2 P3 P4 P5 P6 : Type}
    (T : AnySerde CidU CidEM CidEm CidC P1 P2 P3 P4 P5 P6)
    (hCidU : ∀ a, T.cCidU.de (T.cCidU.ser a) = some a)
    (hCidEM : ∀ a, T.cCidEM.de (T.cCidEM.ser a) = some a)
    (hCidEm : ∀ a, T.cCidEm.de (T.cCidEm.ser a) = some a)
    (hCidC : ∀ a, T.cCidC.de (T.cCidC.ser a) = some a)
    (hP1 : ∀ a, T.cP1.de (T.cP1.ser a) = some a)
    (hP2 : ∀ a, T.cP2.de (T.cP2.ser a) = some a)
    (hP3 : ∀ a, T.cP3.de (T.cP3.ser a) = some a)
    (hP4 : ∀ a, T.cP4.de (T.cP4.ser a) = some a)
    (hP5 : ∀ a, T.cP5.de (T.cP5.ser a) = some a)
    (hP6 : ∀ a, T.cP6.de (T.cP6.ser a) = some a)
    (h12 : T.tagUnion ≠ T.tagEvmMainnet)
    (h13 : T.tagUnion ≠ T.tagEvmMinimal)
    (h14 : T.tagUnion ≠ T.tagCosmos)
    (h23 : T.tagEvmMainnet ≠ T.tagEvmMinimal)
    (h24 : T.tagEvmMainnet ≠ T.tagCosmos)
    (h34 : T.tagEvmMinimal ≠ T.tagCosmos) :
    (∀ m : QueueMsg E D F M W A,
      deserializeQM S (serQM S m) = some m) ∧
    (∀ v : AnyLightClientIdentified CidU CidEM CidEm CidC P1 P2 P3 P4 P5 P6,
      deAny T (serAny T v) = some v) ∧
    deserializeQM S (.obj [("@type", .str ("noop")), ("bogus", .null)]) = none := by
  refine ⟨?_, ?_, ?_⟩
  · intro m
    exact (deQMF_serQM_roundtrip S hE hD hF hM hW hA
      (jsonSize (serQM S m))).1 m le_rfl
  · intro v
    cases v with
    | EvmMainnetOnUnion x =>
      simp [deAny, serAny, deInner_serInner_self,
        deIdentified_serIdentified _ _ hCidU hP1]
    | UnionOnEvmMainnet x =>
      simp [deAny, serAny, deInner_serInner_self,
        deInner_serInner_mismatch _ _ _ _ _ (Or.inl (Ne.symm h12)),
        deIdentified_serIdentified _ _ hCidEM hP2]
    | EvmMinimalOnUnion x =>
      simp [deAny, serAny, deInner_serInner_self,
        deInner_serInner_mismatch _ _ _ _ _ (Or.inr (Ne.symm h23)),
        deInner_serInner_mismatch _ _ _ _ _ (Or.inl h12),
        deIdentified_serIdentified _ _ hCidU hP3]
    | UnionOnEvmMinimal x =>
      simp [deAny, serAny, deInner_serInner_self,
        deInner_serInner_mismatch _ _ _ _ _ (Or.inl (Ne.symm h13)),
        deInner_serInner_mismatch _ _ _ _ _ (Or.inl (Ne.symm h23)),
        deIdentified_serIdentified _ _ hCidEm hP4]
    | CosmosOnUnion x =>
      simp [deAny, serAny, deInner_serInner_self,
        deInner_serInner_mismatch _ _ _ _ _ (Or.inr (Ne.symm h24)),
        deInner_serInner_mismatch _ _ _ _ _ (Or.inl h12),
        deInner_serInner_mismatch _ _ _ _ _ (Or.inr (Ne.symm h34)),
        deInner_serInner_mismatch _ _ _ _ _ (Or.inl h13),
        deIdentified_serIdentified _ _ hCidU hP5]
    | UnionOnCosmos x =>
      simp [deAny, serAny, deInner_serInner_self,
        deInner_serInner_mismatch _ _ _ _ _ (Or.inl (Ne.symm h14)),
        deInner_serInner_mismatch _ _ _ _ _ (Or.inl (Ne.symm h24)),
        deInner_serInner_mismatch _ _ _ _ _ (Or.inl (Ne.symm h34)),
        deIdentified_serIdentified _ _ hCidC hP6]
  · rfl

/-- Witness for C3 at concrete codecs (all payloads `Nat`, tags as in
§6.3) and a concrete composite message. -/
theorem qm_any_serde_roundtrip_witness :
    deserializeQM natQMSerde (serQM natQMSerde
        (.Aggregate [.Sequence [.Event 1, .Fetch 2], .Repeat 3 (.Msg 4)] [5] 6))
      = some (.Aggregate [.Sequence [.Event 1, .Fetch 2], .Repeat 3 (.Msg 4)] [5] 6) ∧
    deAny natAnySerde (serAny natAnySerde (.CosmosOnUnion ⟨3, 9⟩))
      = some (.CosmosOnUnion ⟨3, 9⟩) ∧
    deserializeQM natQMSerde (.obj [("@type", .str ("noop")), ("bogus", .null)])
      = none := by
  have nr : ∀ a : Nat, natCodec.de (natCodec.ser a) = some a := fun _ => rfl
  have h := qm_any_serde_roundtrip natQMSerde nr nr nr nr nr nr natAnySerde
    nr nr nr nr nr nr nr nr nr nr (by decide) (by decide) (by decide)
    (by decide) (by decide) (by decide)
  exact ⟨h.1 _, h.2.1 _, h.2.2⟩

/-- C9: every `GetChain` implementation on `Chains` is partial: the
`unwrap` on the `HashMap` lookup (modelled by the `Option` result, where
`none` is the panic) means an unregistered chain id aborts instead of
surfacing an error — the Rust return type is the bare chain handle, so
no error channel exists (lib.rs lines 290-331). -/
theorem getChain_absent_unwrap_none
    {CidEvmMin CidEvmMain CidUnion CidCosmos EvmMin EvmMain Union Cosmos : Type}
    (c : Chains CidEvmMin CidEvmMain CidUnion CidCosmos EvmMin EvmMain Union Cosmos) :
    (∀ i, c.union i = none → getChainWasmUnion c i = none) ∧
    (∀ i, c.cosmos i = none → getChainWasmCosmos c i = none) ∧
    (∀ i, c.union i = none → getChainUnion c i = none) ∧
    (∀ i, c.evm_minimal i = none → getChainEvmMinimal c i = none) ∧
    (∀ i, c.evm_mainnet i = none → getChainEvmMainnet c i = none) := by
  refine ⟨?_, ?_, ?_, ?_, ?_⟩ <;> intro i hi <;>
    simp [getChainWasmUnion, getChainWasmCosmos, getChainUnion,
      getChainEvmMinimal, getChainEvmMainnet, hi]

/-- Witness for C9: an empty registry at concrete types. -/
theorem getChain_absent_unwrap_none_witness :
    getChainWasmUnion emptyChains 0 = none ∧
    getChainWasmCosmos emptyChains 0 = none ∧
    getChainUnion emptyChains 0 = none ∧
    getChainEvmMinimal emptyChains 0 = none ∧
    getChainEvmMainnet emptyChains 0 = none :=
  ⟨(getChain_absent_unwrap_none emptyChains).1 0 rfl,
   (getChain_absent_unwrap_none emptyChains).2.1 0 rfl,
   (getChain_absent_unwrap_none emptyChains).2.2.1 0 rfl,
   (getChain_absent_unwrap_none emptyChains).2.2.2.1 0 rfl,
   (getChain_absent_unwrap_none emptyChains).2.2.2.2 0 rfl⟩

end Voyager
